import Mathlib

/-!
Trajectory interpolation and gait sequencing of the Spot demo controller: a shallow embedding
of `LABORATORY_1/controllers/spot_moving_demo/spot_moving_demo.c`.

* The joint positions are exact rationals (`ℚ`): the interpolation is studied over exact
  arithmetic.
* The step count of line 48 is computed as the code computes it, in binary64: the product
  and the quotient are each rounded to the nearest `double` (ties to even, overflow to
  infinity), and the conversion to `int` discards the fractional part and is undefined
  outside the range of `int`.
* The simulator API (`wb_robot_get_basic_time_step`, `wb_robot_step`, `wb_robot_get_device`,
  `wb_motor_get_target_position`, `wb_motor_set_position`, `wb_robot_cleanup`) is an external
  collaborator: its answers are the fields of `Env`, and the calls that act on the simulation
  are recorded as `Event`s.
* The call `exit(0)` inside `step` ends the whole program; it is the `Outcome.exited` result,
  which every caller passes on unchanged.
-/

namespace SpotMovingDemo

/-- The macro `NUMBER_OF_JOINTS`. -/
def NUMBER_OF_JOINTS : Nat := 12

/-- The table `motor_names`. -/
def motor_names : List String :=
  ["front left shoulder abduction motor", "front left shoulder rotation motor",
   "front left elbow motor",
   "front right shoulder abduction motor", "front right shoulder rotation motor",
   "front right elbow motor",
   "rear left shoulder abduction motor", "rear left shoulder rotation motor",
   "rear left elbow motor",
   "rear right shoulder abduction motor", "rear right shoulder rotation motor",
   "rear right elbow motor"]

/-- Smallest value of a C `int` (32 bits). -/
def INT_MIN : Int := -2147483648

/-- Largest value of a C `int` (32 bits). -/
def INT_MAX : Int := 2147483647

/-- The calls of the simulator API that act on the simulation, in program order. -/
inductive Event where
  /-- The call `wb_motor_set_position(tag, position)`. -/
  | set_position (tag : Nat) (position : ℚ)
  /-- The call `wb_robot_step(duration)`. -/
  | robot_step (duration : ℚ)
  /-- The call `wb_robot_cleanup()`. -/
  | cleanup
  deriving DecidableEq

/-- Answers of the external simulator. -/
structure Env where
  /-- Value returned by `wb_robot_get_basic_time_step()`, in milliseconds. -/
  basic_time_step : ℚ
  /-- Value returned by the `k`-th call (counted from 0) of `wb_robot_step`; `-1` asks the
  controller to terminate. -/
  robot_step : Nat → Int
  /-- Value returned by `wb_robot_get_device(name)`; `0` is the invalid (null) tag. -/
  get_device : String → Nat

/-- Program state together with the controller-side view of the motors. -/
structure World where
  /-- The static table `motors` of device tags. -/
  motors : List Nat
  /-- Last commanded target of the device with the given tag
  (what `wb_motor_get_target_position` answers). -/
  target_position : Nat → ℚ
  /-- Number of calls of `wb_robot_step` made so far. -/
  ticks : Nat
  /-- API calls made so far, oldest first. -/
  log : List Event

/-- How a piece of the program ends. -/
inductive Outcome where
  /-- Control returned to the caller. -/
  | returned (w : World)
  /-- The process ended through `exit(status)`. -/
  | exited (w : World) (status : Int)
  /-- A conversion from `double` to `int` had no defined result. -/
  | undefined

/-- Sequencing of C statements: the rest of the program runs only after a normal return. -/
def Outcome.andThen (o : Outcome) (rest : World → Outcome) : Outcome :=
  match o with
  | Outcome.returned w => rest w
  | Outcome.exited w status => Outcome.exited w status
  | Outcome.undefined => Outcome.undefined

/-- The call `wb_motor_get_target_position(tag)`. -/
def wb_motor_get_target_position (w : World) (tag : Nat) : ℚ :=
  w.target_position tag

/-- The call `wb_motor_set_position(tag, position)`. -/
def wb_motor_set_position (w : World) (tag : Nat) (position : ℚ) : World :=
  { w with
    target_position := Function.update w.target_position tag position
    log := w.log ++ [Event.set_position tag position] }

/-- The call `wb_robot_cleanup()`. -/
def wb_robot_cleanup (w : World) : World :=
  { w with log := w.log ++ [Event.cleanup] }

/-- The function `step` (lines 38-44): one simulation tick; on the answer `-1` the program
cleans up and exits with status 0. -/
def step (env : Env) (w : World) : Outcome :=
  let time_step := env.basic_time_step
  let w1 : World := { w with ticks := w.ticks + 1, log := w.log ++ [Event.robot_step time_step] }
  if env.robot_step w.ticks = -1 then
    Outcome.exited (wb_robot_cleanup w1) 0
  else
    Outcome.returned w1

/-- The nearest integer to `p / q`, a tie going to the even one. -/
def round_half_even (p q : Nat) : Nat :=
  let f := p / q
  let r := p % q
  if 2 * r < q then f else if q < 2 * r then f + 1 else if f % 2 = 0 then f else f + 1

/-- Numerator and denominator of `p / q / 2 ^ e`. -/
def scale_by_pow2 (p q : Nat) (e : Int) : Nat × Nat :=
  if 0 ≤ e then (p, q * 2 ^ e.toNat) else (p * 2 ^ (-e).toNat, q)

/-- Number of binary digits of `n`, by halving at most `fuel` times. -/
def bit_length_aux : Nat → Nat → Nat
  | 0, _ => 0
  | fuel + 1, n => if n = 0 then 0 else bit_length_aux fuel (n / 2) + 1

/-- The position of the leading binary digit of a positive `n`: the `k` with
`2 ^ k ≤ n < 2 ^ (k + 1)`. -/
def floor_log2 (n : Nat) : Nat :=
  bit_length_aux n n - 1

/-- The binary exponent of `p / q` for positive `p` and `q`: the `e` with
`2 ^ e ≤ p / q < 2 ^ (e + 1)`. -/
def binary_exponent (p q : Nat) : Int :=
  let e0 : Int := (floor_log2 p : Int) - (floor_log2 q : Int)
  let s := scale_by_pow2 p q e0
  if s.2 ≤ s.1 then e0 else e0 - 1

/-- Largest finite binary64 value, `(2 ^ 53 - 1) * 2 ^ 971`. -/
def DBL_MAX : ℚ := ((2 ^ 53 - 1) * 2 ^ 971 : Nat)

/-- The multiple of the binary64 spacing nearest to `p / q` (positive `p` and `q`), ties to
even: 53 significant bits, and the fixed spacing `2 ^ -1074` in the subnormal range. -/
def round_magnitude (p q : Nat) : ℚ :=
  let e := max (binary_exponent p q - 52) (-1074)
  let s := scale_by_pow2 p q e
  let m := round_half_even s.1 s.2
  if 0 ≤ e then ((m * 2 ^ e.toNat : Nat) : ℚ) else (m : ℚ) / ((2 ^ (-e).toNat : Nat) : ℚ)

/-- Rounding of a real value to binary64 (IEEE 754 round to nearest, ties to even): the
finite `double` result, or nothing when the result is infinite. -/
def to_double (x : ℚ) : Option ℚ :=
  if x = 0 then some 0
  else
    let magnitude := round_magnitude x.num.natAbs x.den
    if DBL_MAX < magnitude then none
    else some (if x < 0 then -magnitude else magnitude)

/-- Conversion of a `double` to `int` as in an initialisation `const int n = x;`: the
fractional part is discarded (rounding toward zero); the result is defined only when the
truncated value is an `int`. -/
def double_to_int (x : ℚ) : Option Int :=
  let t := Int.tdiv x.num x.den
  if INT_MIN ≤ t ∧ t ≤ INT_MAX then some t else none

/-- The value of the `double` expression `duration * 1000 / time_step` of line 48: the
product is rounded to binary64, then the quotient is. The two operands are `double`s (a
rational that is not a binary64 number stands for the nearest one, as the quotient
`duration / 3` of `walk_forward` does). Nothing when the value is infinite or NaN (overflow,
or a zero `time_step`). -/
def step_quotient (time_step duration : ℚ) : Option ℚ :=
  (to_double duration).bind fun d =>
  (to_double time_step).bind fun ts =>
  (to_double (d * 1000)).bind fun product =>
  if ts = 0 then none else to_double (product / ts)

/-- Line 48: `n_steps_to_achieve_target = duration * 1000 / time_step`, the `double` value
converted to `int`. -/
def n_steps_to_achieve_target (time_step duration : ℚ) : Option Int :=
  (step_quotient time_step duration).bind double_to_int

/-- One pass of the inner loop body (lines 59-60) for joint `j`: the local accumulator
`current_position[j]` is advanced by `step_difference[j]` and commanded to `motors[j]`. -/
def joint_body (step_difference : List ℚ) (j : Nat) (s : List ℚ × World) : List ℚ × World :=
  let current_position := s.1.set j (s.1.getD j 0 + step_difference.getD j 0)
  (current_position,
    wb_motor_set_position s.2 (s.2.motors.getD j 0) (current_position.getD j 0))

/-- The inner loop (lines 58-61), `j = 0 .. NUMBER_OF_JOINTS - 1`. -/
def joint_loop (step_difference : List ℚ) (s : List ℚ × World) : List ℚ × World :=
  (List.range NUMBER_OF_JOINTS).foldl (fun s j => joint_body step_difference j s) s

/-- The outer loop (lines 57-63) with `remaining` iterations left: command all joints, then
`step()`; an exit inside `step` ends the loop and the program. -/
def tick_loop (env : Env) (step_difference : List ℚ) :
    Nat → List ℚ → World → Outcome
  | 0, _, w => Outcome.returned w
  | remaining + 1, current_position, w =>
    let s := joint_loop step_difference (current_position, w)
    (step env s.2).andThen (tick_loop env step_difference remaining s.1)

/-- The local array `current_position` after the first loop (line 53): the target last
commanded to each motor. -/
def read_current_position (w : World) : List ℚ :=
  (List.range NUMBER_OF_JOINTS).map fun i =>
    wb_motor_get_target_position w (w.motors.getD i 0)

/-- The local array `step_difference` after the first loop (line 54). For `n = 0` the C
quotient is infinite or NaN and is never read, because the second loop then runs zero times;
here it is `0` (the convention of `ℚ`), equally never read. -/
def compute_step_difference (target current_position : List ℚ) (n : Int) : List ℚ :=
  (List.range NUMBER_OF_JOINTS).map fun i =>
    (target.getD i 0 - current_position.getD i 0) / (n : ℚ)

/-- The function `movement_decomposition` (lines 46-64). The loop `for (i = 0; i < n; ++i)`
runs `n.toNat` times (not at all for `n ≤ 0`). The parameter `duration` is a `double`, see
`step_quotient`. -/
def movement_decomposition (env : Env) (target : List ℚ) (duration : ℚ) (w : World) :
    Outcome :=
  let time_step := env.basic_time_step
  match n_steps_to_achieve_target time_step duration with
  | none => Outcome.undefined
  | some n =>
    let current_position := read_current_position w
    let step_difference := compute_step_difference target current_position n
    tick_loop env step_difference n.toNat current_position w

/-- The function `stand_up` (lines 66-72). -/
def stand_up (env : Env) (duration : ℚ) (w : World) : Outcome :=
  let motors_target_pos : List ℚ :=
    [-0.1, 0.0, 0.0,
      0.1, 0.0, 0.0,
     -0.1, 0.0, 0.0,
      0.1, 0.0, 0.0]
  movement_decomposition env motors_target_pos duration w

/-- The function `walk_forward` (lines 74-100). The quotient `duration / 3` is handed on as
it is; `movement_decomposition` takes its `double` value, see `step_quotient`. -/
def walk_forward (env : Env) (duration : ℚ) (w : World) : Outcome :=
  let shift_pos : List ℚ :=
    [-0.1, 0.1, 0.0,
      0.1, -0.1, 0.0,
     -0.1, 0.1, 0.0,
      0.1, -0.1, 0.0]
  (movement_decomposition env shift_pos (duration / 3) w).andThen fun w =>
  let motors_target_pos_1 : List ℚ :=
    [-0.15, 0.2, -0.2,
      0.1, 0.0, 0.0,
     -0.1, 0.0, 0.0,
      0.15, -0.2, 0.2]
  (movement_decomposition env motors_target_pos_1 (duration / 3) w).andThen fun w =>
  (movement_decomposition env shift_pos (duration / 3) w).andThen fun w =>
  let motors_target_pos_2 : List ℚ :=
    [0.1, 0.0, 0.0,
     -0.15, -0.2, 0.2,
      0.15, 0.2, -0.2,
     -0.1, 0.0, 0.0]
  movement_decomposition env motors_target_pos_2 (duration / 3) w

/-- The loop `while (true) { stand_up(1.0); walk_forward(1.0); }` of `main` (lines 109-112),
unrolled `iterations` times. The loop has no exit of its own: the program ends only through
`exit(0)` inside `step`, so lines 114-115 are never reached. -/
def main_loop (env : Env) : Nat → World → Outcome
  | 0, w => Outcome.returned w
  | iterations + 1, w =>
    ((stand_up env 1.0 w).andThen (walk_forward env 1.0)).andThen (main_loop env iterations)

/-- State at program start: the static table `motors` is zero-initialised, no API call has
been made; `target_position` is the simulator's initial target of every device. -/
def initial_world (target_position : Nat → ℚ) : World :=
  { motors := List.replicate NUMBER_OF_JOINTS 0, target_position := target_position,
    ticks := 0, log := [] }

/-- Lines 106-107 of `main`: every motor name is looked up and the answer stored, whatever
it is. -/
def resolve_motors (env : Env) (w : World) : World :=
  (List.range NUMBER_OF_JOINTS).foldl
    (fun w i => { w with motors := w.motors.set i (env.get_device (motor_names.getD i "")) }) w

/-- The function `main` (lines 102-116), its loop unrolled `iterations` times. The calls
`wb_robot_init()` and `wb_robot_get_basic_time_step()` of lines 103-104 change nothing here. -/
def main (env : Env) (target_position : Nat → ℚ) (iterations : Nat) : Outcome :=
  main_loop env iterations (resolve_motors env (initial_world target_position))

/-! ## Descriptions of traces, used to state the properties -/

/-- The twelve motor commands of one tick: joint `j`, through the handle `motors[j]`, gets
`position j`, in index order `0 .. 11`. -/
def joint_events (motors : List Nat) (position : Nat → ℚ) : List Event :=
  (List.range NUMBER_OF_JOINTS).map fun j => Event.set_position (motors.getD j 0) (position j)

/-- One tick: the twelve motor commands, then the call of `wb_robot_step`. -/
def tick_events (motors : List Nat) (time_step : ℚ) (position : Nat → ℚ) : List Event :=
  joint_events motors position ++ [Event.robot_step time_step]

/-- The trace of `count` ticks of a linear interpolation: on tick `i` (counted from 1) joint
`j` is commanded `start j + i * delta j`. -/
def linear_trace (motors : List Nat) (time_step : ℚ) (start delta : Nat → ℚ) (count : Nat) :
    List Event :=
  ((List.range count).map fun (i : Nat) =>
    tick_events motors time_step (fun j => start j + ((i : ℚ) + 1) * delta j)).flatten

/-- Motor targets after the twelve commands of one tick. -/
def set_targets (motors : List Nat) (position : Nat → ℚ) (target_position : Nat → ℚ) :
    Nat → ℚ :=
  (List.range NUMBER_OF_JOINTS).foldl
    (fun tp j => Function.update tp (motors.getD j 0) (position j)) target_position

/-- The current target of joint `j`, read through the handle `motors[j]`. -/
def current_target (w : World) (j : Nat) : ℚ :=
  wb_motor_get_target_position w (w.motors.getD j 0)

/-- The position of a motor command; nothing for the other calls. -/
def Event.position? : Event → Option ℚ
  | Event.set_position _ position => some position
  | _ => none

/-- The positions commanded in a trace, in order. -/
def commanded_vector (events : List Event) : List ℚ :=
  events.filterMap Event.position?

/-- Number of `wb_motor_set_position` calls of a trace made through the handle `tag`. -/
def count_commands_through (tag : Nat) (events : List Event) : Nat :=
  events.countP fun e => match e with
    | Event.set_position t _ => t == tag
    | _ => false

/-- The API calls made up to the end of a piece of program. -/
def Outcome.log : Outcome → List Event
  | Outcome.returned w => w.log
  | Outcome.exited w _ => w.log
  | Outcome.undefined => []

/-- Number of simulation ticks made up to the end of a piece of program. -/
def Outcome.ticks : Outcome → Nat
  | Outcome.returned w => w.ticks
  | Outcome.exited w _ => w.ticks
  | Outcome.undefined => 0

/-- The exit status, when the process ended. -/
def Outcome.exit_status : Outcome → Option Int
  | Outcome.exited _ status => some status
  | _ => none

/-- Whether control came back to the caller. -/
def Outcome.is_returned : Outcome → Bool
  | Outcome.returned _ => true
  | _ => false

/-- A sequence of interpolation phases, each a call of `movement_decomposition` with a
target pose and a duration, performed in order. -/
def run_phases (env : Env) : List (List ℚ × ℚ) → World → Outcome
  | [], w => Outcome.returned w
  | (target, duration) :: rest, w =>
    (movement_decomposition env target duration w).andThen (run_phases env rest)

/-- The cycle of the top-level driver as the specification lists it: stand over `1.0`, then
shift, phase 1, shift, phase 2, each over `1.0 / 3`. -/
def gait_cycle : List (List ℚ × ℚ) :=
  [([-0.1, 0, 0, 0.1, 0, 0, -0.1, 0, 0, 0.1, 0, 0], 1.0),
   ([-0.1, 0.1, 0, 0.1, -0.1, 0, -0.1, 0.1, 0, 0.1, -0.1, 0], 1.0 / 3),
   ([-0.15, 0.2, -0.2, 0.1, 0, 0, -0.1, 0, 0, 0.15, -0.2, 0.2], 1.0 / 3),
   ([-0.1, 0.1, 0, 0.1, -0.1, 0, -0.1, 0.1, 0, 0.1, -0.1, 0], 1.0 / 3),
   ([0.1, 0, 0, -0.15, -0.2, 0.2, 0.15, 0.2, -0.2, -0.1, 0, 0], 1.0 / 3)]

/-- Truncation toward zero, written with floor and ceiling. -/
def trunc (q : ℚ) : Int :=
  if 0 ≤ q then ⌊q⌋ else ⌈q⌉

/-! ## Sample environments -/

/-- A simulator with a 500 ms time step that never asks for termination and resolves every
motor name to a distinct valid tag `1 .. 12`. -/
def demo_env : Env :=
  { basic_time_step := 500, robot_step := fun _ => 0,
    get_device := fun name => motor_names.indexOf name + 1 }

/-- A simulator with the 32 ms time step of the specification's example. -/
def demo_env_32 : Env :=
  { basic_time_step := 32, robot_step := fun _ => 0,
    get_device := fun name => motor_names.indexOf name + 1 }

/-- A simulator (500 ms time step) that asks for termination on its second tick. -/
def demo_env_stop : Env :=
  { basic_time_step := 500, robot_step := fun k => if k = 1 then -1 else 0,
    get_device := fun name => motor_names.indexOf name + 1 }

/-- A simulator (500 ms time step) in which the front left elbow motor does not exist: its
lookup answers the null tag `0`. -/
def demo_env_missing : Env :=
  { basic_time_step := 500, robot_step := fun _ => 0,
    get_device := fun name =>
      if name = "front left elbow motor" then 0 else motor_names.indexOf name + 1 }

/-- The program state of `demo_env` after the device lookups, all targets at `0`. -/
def demo_world : World :=
  resolve_motors demo_env (initial_world fun _ => 0)

/-- A destination pose with twelve different values. -/
def demo_target : List ℚ :=
  [1, 2, 3, 4, 5, 6, 7, 8, 9, 10, 11, 12]

/-! ## The loops -/

theorem range_joints :
    List.range NUMBER_OF_JOINTS = [0, 1, 2, 3, 4, 5, 6, 7, 8, 9, 10, 11] := by
  decide

theorem joint_loop_eq (d c : Nat → ℚ) (w : World) :
    joint_loop ((List.range NUMBER_OF_JOINTS).map d) ((List.range NUMBER_OF_JOINTS).map c, w) =
      ((List.range NUMBER_OF_JOINTS).map (fun j => c j + d j),
        { w with
          target_position := set_targets w.motors (fun j => c j + d j) w.target_position
          log := w.log ++ joint_events w.motors (fun j => c j + d j) }) := by
  simp [joint_loop, joint_body, set_targets, joint_events, range_joints, wb_motor_set_position]

theorem linear_trace_zero (motors : List Nat) (ts : ℚ) (c d : Nat → ℚ) :
    linear_trace motors ts c d 0 = [] := by
  simp [linear_trace]

theorem linear_trace_succ (motors : List Nat) (ts : ℚ) (c d : Nat → ℚ) (k : Nat) :
    linear_trace motors ts c d (k + 1) =
      tick_events motors ts (fun j => c j + d j) ++
        linear_trace motors ts (fun j => c j + d j) d k := by
  unfold linear_trace
  rw [List.range_succ_eq_map, List.map_cons, List.flatten_cons, List.map_map]
  congr 1
  · congr 1
    funext j
    push_cast
    ring
  · congr 1
    apply List.map_congr_left
    intro i _
    simp only [Function.comp, Nat.succ_eq_add_one]
    congr 1
    funext j
    push_cast
    ring

/-- The outer loop when no tick asks for termination: it returns after `k` ticks, having
appended the linear trace. -/
theorem tick_loop_run (env : Env) (d : Nat → ℚ) (k : Nat) :
    ∀ (c : Nat → ℚ) (w : World), (∀ i, i < k → env.robot_step (w.ticks + i) ≠ -1) →
      ∃ w1, tick_loop env ((List.range NUMBER_OF_JOINTS).map d) k
          ((List.range NUMBER_OF_JOINTS).map c) w = Outcome.returned w1 ∧
        w1.motors = w.motors ∧ w1.ticks = w.ticks + k ∧
        w1.log = w.log ++ linear_trace w.motors env.basic_time_step c d k := by
  induction k with
  | zero =>
    intro c w _
    exact ⟨w, rfl, rfl, rfl, by simp [linear_trace_zero]⟩
  | succ k ih =>
    intro c w h
    have h0 : env.robot_step w.ticks ≠ -1 := by simpa using h 0 (Nat.succ_pos k)
    obtain ⟨w1, e1, m1, t1, l1⟩ := ih (fun j => c j + d j)
      { w with
        target_position := set_targets w.motors (fun j => c j + d j) w.target_position
        ticks := w.ticks + 1
        log := w.log ++ joint_events w.motors (fun j => c j + d j) ++
          [Event.robot_step env.basic_time_step] }
      (by
        intro i hi
        have := h (i + 1) (Nat.succ_lt_succ hi)
        simpa [Nat.add_assoc, Nat.add_comm 1 i] using this)
    refine ⟨w1, ?_, m1, ?_, ?_⟩
    · simp only [tick_loop, joint_loop_eq, step, if_neg h0, Outcome.andThen]
      exact e1
    · simp only [t1]; omega
    · rw [l1, linear_trace_succ]
      simp [tick_events, List.append_assoc]

/-- The outer loop when tick `k0` (counted from 0) is the first to ask for termination: the
program exits with status 0 right after that tick. -/
theorem tick_loop_exit (env : Env) (d : Nat → ℚ) (k0 : Nat) :
    ∀ (k : Nat) (c : Nat → ℚ) (w : World), k0 < k →
      (∀ i, i < k0 → env.robot_step (w.ticks + i) ≠ -1) →
      env.robot_step (w.ticks + k0) = -1 →
      ∃ w1, tick_loop env ((List.range NUMBER_OF_JOINTS).map d) k
          ((List.range NUMBER_OF_JOINTS).map c) w = Outcome.exited w1 0 ∧
        w1.motors = w.motors ∧ w1.ticks = w.ticks + (k0 + 1) ∧
        w1.log = w.log ++ linear_trace w.motors env.basic_time_step c d (k0 + 1) ++
          [Event.cleanup] := by
  induction k0 with
  | zero =>
    intro k c w hk _ hx
    obtain ⟨k, rfl⟩ : ∃ k1, k = k1 + 1 := ⟨k - 1, by omega⟩
    have h0 : env.robot_step w.ticks = -1 := by simpa using hx
    refine ⟨wb_robot_cleanup
      { w with
        target_position := set_targets w.motors (fun j => c j + d j) w.target_position
        ticks := w.ticks + 1
        log := w.log ++ joint_events w.motors (fun j => c j + d j) ++
          [Event.robot_step env.basic_time_step] }, ?_, ?_, ?_, ?_⟩
    · simp only [tick_loop, joint_loop_eq, step, if_pos h0, Outcome.andThen]
    · rfl
    · rfl
    · simp [wb_robot_cleanup, linear_trace_succ, linear_trace_zero, tick_events]
  | succ k0 ih =>
    intro k c w hk h hx
    obtain ⟨k, rfl⟩ : ∃ k1, k = k1 + 1 := ⟨k - 1, by omega⟩
    have h0 : env.robot_step w.ticks ≠ -1 := by simpa using h 0 (Nat.succ_pos k0)
    obtain ⟨w1, e1, m1, t1, l1⟩ := ih k (fun j => c j + d j)
      { w with
        target_position := set_targets w.motors (fun j => c j + d j) w.target_position
        ticks := w.ticks + 1
        log := w.log ++ joint_events w.motors (fun j => c j + d j) ++
          [Event.robot_step env.basic_time_step] }
      (by omega)
      (by
        intro i hi
        have := h (i + 1) (Nat.succ_lt_succ hi)
        simpa [Nat.add_assoc, Nat.add_comm 1 i] using this)
      (by simpa [Nat.add_assoc, Nat.add_comm 1 k0] using hx)
    refine ⟨w1, ?_, m1, ?_, ?_⟩
    · simp only [tick_loop, joint_loop_eq, step, if_neg h0, Outcome.andThen]
      exact e1
    · simp only [t1]; omega
    · rw [l1, linear_trace_succ (k := k0 + 1)]
      simp [tick_events, List.append_assoc]

/-! ## The conversion to a step count -/

theorem tdiv_num_den (q : ℚ) : Int.tdiv q.num q.den = trunc q := by
  unfold trunc
  split_ifs with h
  · rw [Int.tdiv_eq_ediv (Rat.num_nonneg.mpr h) (Int.ofNat_nonneg _), Rat.floor_def]
  · have hneg : 0 ≤ -q := by linarith [not_le.mp h]
    have h1 : Int.tdiv (-q).num (-q).den = ⌊-q⌋ := by
      rw [Int.tdiv_eq_ediv (Rat.num_nonneg.mpr hneg) (Int.ofNat_nonneg _), Rat.floor_def]
    rw [Rat.num_neg_eq_neg_num, Rat.den_neg_eq_den, Int.neg_tdiv, Int.floor_neg] at h1
    exact neg_injective h1

theorem n_steps_of_trunc {ts duration q : ℚ} (hq : step_quotient ts duration = some q)
    (hr : INT_MIN ≤ trunc q ∧ trunc q ≤ INT_MAX) :
    n_steps_to_achieve_target ts duration = some (trunc q) := by
  unfold n_steps_to_achieve_target double_to_int
  simp only [hq, Option.some_bind, tdiv_num_den, if_pos hr]

theorem round_magnitude_nonneg (p q : Nat) : 0 ≤ round_magnitude p q := by
  unfold round_magnitude
  simp only
  split_ifs
  · exact Nat.cast_nonneg _
  · exact div_nonneg (Nat.cast_nonneg _) (Nat.cast_nonneg _)

theorem to_double_nonneg {x y : ℚ} (hx : 0 ≤ x) (h : to_double x = some y) : 0 ≤ y := by
  unfold to_double at h
  simp only at h
  split_ifs at h with h0 hmax hneg
  · cases h; exact le_refl 0
  · exact absurd hneg (not_lt.mpr hx)
  · cases h; exact round_magnitude_nonneg _ _

theorem step_quotient_nonneg {ts duration q : ℚ} (hd : 0 ≤ duration) (hts : 0 ≤ ts)
    (hq : step_quotient ts duration = some q) : 0 ≤ q := by
  unfold step_quotient at hq
  cases hd1 : to_double duration with
  | none => simp [hd1] at hq
  | some d =>
    cases hts1 : to_double ts with
    | none => simp [hd1, hts1] at hq
    | some t =>
      cases hp1 : to_double (d * 1000) with
      | none => simp [hd1, hts1, hp1] at hq
      | some p =>
        simp only [hd1, hts1, hp1, Option.some_bind] at hq
        split_ifs at hq with h0
        have hd2 := to_double_nonneg hd hd1
        have ht2 := to_double_nonneg hts hts1
        have hp2 := to_double_nonneg (by positivity) hp1
        exact to_double_nonneg (div_nonneg hp2 ht2) hq

/-! ## `movement_decomposition` -/

theorem read_current_position_eq (w : World) :
    read_current_position w = (List.range NUMBER_OF_JOINTS).map (current_target w) := rfl

theorem compute_step_difference_eq (target : List ℚ) (c : Nat → ℚ) (n : Int) :
    compute_step_difference target ((List.range NUMBER_OF_JOINTS).map c) n =
      (List.range NUMBER_OF_JOINTS).map (fun j => (target.getD j 0 - c j) / (n : ℚ)) := by
  simp [compute_step_difference, range_joints]

theorem movement_decomposition_eq (env : Env) (target : List ℚ) (duration : ℚ) (w : World)
    (n : Int) (hn : n_steps_to_achieve_target env.basic_time_step duration = some n) :
    movement_decomposition env target duration w =
      tick_loop env
        ((List.range NUMBER_OF_JOINTS).map
          (fun j => (target.getD j 0 - current_target w j) / (n : ℚ)))
        n.toNat ((List.range NUMBER_OF_JOINTS).map (current_target w)) w := by
  simp only [movement_decomposition, hn, read_current_position_eq, compute_step_difference_eq]

theorem linear_trace_eq (motors : List Nat) (ts : ℚ) (c d : Nat → ℚ) (k : Nat) :
    linear_trace motors ts c d k =
      ((List.range' 1 k).map fun (i : Nat) =>
        tick_events motors ts (fun j => c j + (i : ℚ) * d j)).flatten := by
  unfold linear_trace
  rw [List.range'_eq_map_range, List.map_map]
  congr 1
  apply List.map_congr_left
  intro i _
  simp only [Function.comp]
  congr 1
  funext j
  push_cast
  ring

theorem length_tick_events (motors : List Nat) (ts : ℚ) (p : Nat → ℚ) :
    (tick_events motors ts p).length = NUMBER_OF_JOINTS + 1 := by
  simp [tick_events, joint_events]

theorem length_flatten_ticks (motors : List Nat) (ts : ℚ) (p : Nat → Nat → ℚ) (l : List Nat) :
    ((l.map fun (i : Nat) => tick_events motors ts (p i)).flatten).length =
      l.length * (NUMBER_OF_JOINTS + 1) := by
  induction l with
  | nil => simp
  | cons a l ih =>
    simp only [List.map_cons, List.flatten_cons, List.length_append, ih, length_tick_events,
      List.length_cons]
    ring

theorem commanded_vector_tick_events (motors : List Nat) (ts : ℚ) (target : List ℚ)
    (hlen : target.length = NUMBER_OF_JOINTS) :
    commanded_vector (tick_events motors ts (fun j => target.getD j 0)) = target := by
  match target, hlen with
  | [a0, a1, a2, a3, a4, a5, a6, a7, a8, a9, a10, a11], _ =>
    simp [commanded_vector, tick_events, joint_events, range_joints, Event.position?]

theorem run_phases_cons (env : Env) (target : List ℚ) (duration : ℚ)
    (rest : List (List ℚ × ℚ)) (w : World) :
    run_phases env ((target, duration) :: rest) w =
      (movement_decomposition env target duration w).andThen (run_phases env rest) := rfl

/-- The call returns after `n.toNat` ticks when none of them asks for termination. -/
theorem movement_decomposition_run (env : Env) (w : World) (target : List ℚ) (duration : ℚ)
    (n : Int) (hn : n_steps_to_achieve_target env.basic_time_step duration = some n)
    (hrun : ∀ i, i < n.toNat → env.robot_step (w.ticks + i) ≠ -1) :
    ∃ w1, movement_decomposition env target duration w = Outcome.returned w1 ∧
      w1.motors = w.motors ∧ w1.ticks = w.ticks + n.toNat ∧
      w1.log = w.log ++ ((List.range' 1 n.toNat).map fun (i : Nat) =>
        tick_events w.motors env.basic_time_step (fun j =>
          current_target w j +
            (i : ℚ) * (target.getD j 0 - current_target w j) / (n : ℚ))).flatten := by
  obtain ⟨w1, e1, m1, t1, l1⟩ := tick_loop_run env
    (fun j => (target.getD j 0 - current_target w j) / (n : ℚ)) n.toNat (current_target w) w hrun
  refine ⟨w1, ?_, m1, t1, ?_⟩
  · rw [movement_decomposition_eq env target duration w n hn]
    exact e1
  · rw [l1, linear_trace_eq]
    simp only [mul_div_assoc]

/-! ## The claims about `movement_decomposition` -/

/-- C1 (linearity of `movement_decomposition`): for a 12-element destination and a step
count `n ≥ 1`, when no tick asks for termination the call returns and the API calls it made
are, for `i = 1 .. n` in order, the twelve commands
`current[j] + i * (destination[j] - current[j]) / n` to joints `j = 0 .. 11` followed by one
simulation tick; the twelve positions commanded on tick `n` are the destination. -/
theorem movement_decomposition_linear (env : Env) (w : World) (target : List ℚ)
    (duration : ℚ) (n : Int)
    (hlen : target.length = NUMBER_OF_JOINTS)
    (hn : n_steps_to_achieve_target env.basic_time_step duration = some n)
    (h1 : 1 ≤ n)
    (hrun : ∀ i, i < n.toNat → env.robot_step (w.ticks + i) ≠ -1) :
    ∃ w1, movement_decomposition env target duration w = Outcome.returned w1 ∧
      w1.log = w.log ++ ((List.range' 1 n.toNat).map fun (i : Nat) =>
        tick_events w.motors env.basic_time_step (fun j =>
          current_target w j +
            (i : ℚ) * (target.getD j 0 - current_target w j) / (n : ℚ))).flatten ∧
      commanded_vector
        (w1.log.drop (w.log.length + (n.toNat - 1) * (NUMBER_OF_JOINTS + 1))) = target := by
  obtain ⟨w1, e1, -, -, l1⟩ := movement_decomposition_run env w target duration n hn hrun
  refine ⟨w1, e1, l1, ?_⟩
  obtain ⟨m, hm⟩ : ∃ m, n.toNat = m + 1 := ⟨n.toNat - 1, by omega⟩
  have hnq : (n : ℚ) = (m : ℚ) + 1 := by
    have : (n.toNat : Int) = n := Int.toNat_of_nonneg (by omega)
    rw [← this, hm]; push_cast; ring
  have hne : (n : ℚ) ≠ 0 := by
    have : (0 : ℚ) < n := by exact_mod_cast (by omega : (0 : Int) < n)
    exact ne_of_gt this
  have hlast : (fun j => current_target w j +
      ((1 + m : Nat) : ℚ) * (target.getD j 0 - current_target w j) / (n : ℚ)) =
      fun j => target.getD j 0 := by
    funext j
    rw [show (((1 + m : Nat)) : ℚ) = (n : ℚ) by rw [hnq]; push_cast; ring]
    field_simp
  rw [l1, hm, Nat.add_sub_cancel, List.range'_1_concat, List.map_append, List.flatten_append,
    ← List.append_assoc, List.drop_left' (by
      rw [List.length_append, length_flatten_ticks, List.length_range'])]
  simp only [List.map_cons, List.map_nil, List.flatten_cons, List.flatten_nil, List.append_nil,
    hlast]
  exact commanded_vector_tick_events _ _ _ hlen

/-- Witness of C1: a 500 ms time step and a duration of 1 s give two steps. -/
theorem movement_decomposition_linear_witness :
    ∃ w1, movement_decomposition demo_env demo_target 1 demo_world = Outcome.returned w1 ∧
      w1.log = demo_world.log ++ ((List.range' 1 (2 : Int).toNat).map fun (i : Nat) =>
        tick_events demo_world.motors demo_env.basic_time_step (fun j =>
          current_target demo_world j +
            (i : ℚ) * (demo_target.getD j 0 - current_target demo_world j) /
              ((2 : Int) : ℚ))).flatten ∧
      commanded_vector
        (w1.log.drop (demo_world.log.length + ((2 : Int).toNat - 1) * (NUMBER_OF_JOINTS + 1))) =
          demo_target :=
  movement_decomposition_linear demo_env demo_world demo_target 1 2 (by decide) (by decide!)
    (by decide) (fun _ _ => by show (0 : Int) ≠ -1; decide)

/-- C2 (termination propagation): when tick `k` (counted from 0, `k < n`) of an interpolation
is the first on which the external step asks for termination, the program calls
`wb_robot_cleanup` and exits with status 0 right after that tick: exactly `k + 1` ticks of the
interpolation were made, the trace ends with that tick and the cleanup, no motor command
follows, and whatever comes after the call (the rest of the gait) is not run. -/
theorem termination_propagation (env : Env) (w : World) (target : List ℚ) (duration : ℚ)
    (n : Int) (k : Nat)
    (hn : n_steps_to_achieve_target env.basic_time_step duration = some n)
    (hk : (k : Int) < n)
    (hbefore : ∀ i, i < k → env.robot_step (w.ticks + i) ≠ -1)
    (hterm : env.robot_step (w.ticks + k) = -1) :
    ∃ w1, movement_decomposition env target duration w = Outcome.exited w1 0 ∧
      w1.ticks = w.ticks + (k + 1) ∧
      w1.log = w.log ++ ((List.range' 1 (k + 1)).map fun (i : Nat) =>
        tick_events w.motors env.basic_time_step (fun j =>
          current_target w j +
            (i : ℚ) * (target.getD j 0 - current_target w j) / (n : ℚ))).flatten ++
        [Event.cleanup] ∧
      w1.log.drop (w.log.length + (k + 1) * (NUMBER_OF_JOINTS + 1)) = [Event.cleanup] ∧
      (∀ rest : World → Outcome,
        (movement_decomposition env target duration w).andThen rest = Outcome.exited w1 0) ∧
      (∀ later : List (List ℚ × ℚ),
        run_phases env ((target, duration) :: later) w = Outcome.exited w1 0) := by
  obtain ⟨w1, e1, -, t1, l1⟩ := tick_loop_exit env
    (fun j => (target.getD j 0 - current_target w j) / (n : ℚ)) k n.toNat (current_target w) w
    (by omega) hbefore hterm
  have e2 : movement_decomposition env target duration w = Outcome.exited w1 0 := by
    rw [movement_decomposition_eq env target duration w n hn]
    exact e1
  have l2 : w1.log = w.log ++ ((List.range' 1 (k + 1)).map fun (i : Nat) =>
        tick_events w.motors env.basic_time_step (fun j =>
          current_target w j +
            (i : ℚ) * (target.getD j 0 - current_target w j) / (n : ℚ))).flatten ++
        [Event.cleanup] := by
    rw [l1, linear_trace_eq]
    simp only [mul_div_assoc]
  refine ⟨w1, e2, t1, l2, ?_, ?_, ?_⟩
  · rw [l2, List.drop_left' (by
      rw [List.length_append, length_flatten_ticks, List.length_range'])]
  · intro rest
    rw [e2]
    rfl
  · intro later
    rw [run_phases_cons, e2]
    rfl

/-- Witness of C2: two steps are due, the simulator stops on the second tick. -/
theorem termination_propagation_witness :
    ∃ w1, movement_decomposition demo_env_stop demo_target 1 demo_world = Outcome.exited w1 0 ∧
      w1.ticks = demo_world.ticks + (1 + 1) ∧
      w1.log = demo_world.log ++ ((List.range' 1 (1 + 1)).map fun (i : Nat) =>
        tick_events demo_world.motors demo_env_stop.basic_time_step (fun j =>
          current_target demo_world j +
            (i : ℚ) * (demo_target.getD j 0 - current_target demo_world j) /
              ((2 : Int) : ℚ))).flatten ++
        [Event.cleanup] ∧
      w1.log.drop (demo_world.log.length + (1 + 1) * (NUMBER_OF_JOINTS + 1)) =
        [Event.cleanup] ∧
      (∀ rest : World → Outcome,
        (movement_decomposition demo_env_stop demo_target 1 demo_world).andThen rest =
          Outcome.exited w1 0) ∧
      (∀ later : List (List ℚ × ℚ),
        run_phases demo_env_stop ((demo_target, 1) :: later) demo_world =
          Outcome.exited w1 0) :=
  termination_propagation demo_env_stop demo_world demo_target 1 2 1 (by decide!) (by decide)
    (fun i hi => by obtain rfl : i = 0 := by omega
                    decide!)
    (by decide!)

/-- Sample values of the rounding to binary64: a value between two `double`s, a `double`
(unchanged), two ties (to the even neighbour), the overflow threshold, and the subnormal
range. -/
theorem to_double_examples :
    to_double (1 / 3) = some (6004799503160661 / 2 ^ 54) ∧
    to_double 0.1 = some (3602879701896397 / 2 ^ 55) ∧
    to_double (6004799503160661 / 2 ^ 54) = some (6004799503160661 / 2 ^ 54) ∧
    to_double (2 ^ 53 + 1) = some (2 ^ 53) ∧
    to_double (2 ^ 53 + 3) = some (2 ^ 53 + 4) ∧
    to_double DBL_MAX = some DBL_MAX ∧
    to_double (2 ^ 1024) = none ∧
    to_double (3 / 2 ^ 1075) = some (1 / 2 ^ 1073) ∧
    to_double (1 / 2 ^ 1075) = some 0 ∧
    to_double (-(1 / 3)) = some (-(6004799503160661 / 2 ^ 54)) := by
  decide!

/-- Inputs on which binary64 rounding decides the step count. The `double` nearest to 0.009
lies below 0.009 and its product with 1000 rounds to exactly 9: with a 1 ms time step line 48
gives 9 steps, where the exact quotient of the same `double` truncates to 8. A third of the
`double` nearest to 0.03 rounds to the `double` nearest to 0.01, whose product with 1000
rounds to 10: with a 10 ms time step a phase of `walk_forward` has 1 step, where the exact
quotient truncates to 0. -/
theorem step_count_rounding_examples :
    to_double 0.009 = some (5188146770730811 / 2 ^ 59) ∧
    step_quotient 1 (5188146770730811 / 2 ^ 59) = some 9 ∧
    n_steps_to_achieve_target 1 (5188146770730811 / 2 ^ 59) = some 9 ∧
    trunc ((5188146770730811 / 2 ^ 59 : ℚ) * 1000 / 1) = 8 ∧
    to_double 0.03 = some (1080863910568919 / 2 ^ 55) ∧
    n_steps_to_achieve_target 10 (1080863910568919 / 2 ^ 55 / 3) = some 1 ∧
    trunc ((1080863910568919 / 2 ^ 55 / 3 : ℚ) * 1000 / 10) = 0 := by
  decide!

theorem set_targets_self (motors : List Nat) (tp : Nat → ℚ) :
    set_targets motors (fun j => tp (motors.getD j 0)) tp = tp := by
  simp [set_targets, range_joints]

/-- The outer loop with zero increments, started from the motors' own targets: every tick
re-commands those targets, whatever the simulator answers. -/
theorem tick_loop_noop (env : Env) (k : Nat) :
    ∀ w : World, ∃ w1 m, m ≤ k ∧
      (tick_loop env ((List.range NUMBER_OF_JOINTS).map fun _ => (0 : ℚ)) k
          ((List.range NUMBER_OF_JOINTS).map (current_target w)) w = Outcome.returned w1 ∧
          m = k ∧
          w1.log = w.log ++ (List.replicate m
            (tick_events w.motors env.basic_time_step (current_target w))).flatten ∨
        tick_loop env ((List.range NUMBER_OF_JOINTS).map fun _ => (0 : ℚ)) k
          ((List.range NUMBER_OF_JOINTS).map (current_target w)) w = Outcome.exited w1 0 ∧
          w1.log = w.log ++ (List.replicate m
            (tick_events w.motors env.basic_time_step (current_target w))).flatten ++
            [Event.cleanup]) ∧
      w1.target_position = w.target_position ∧ w1.motors = w.motors := by
  induction k with
  | zero =>
    intro w
    exact ⟨w, 0, le_refl 0, Or.inl ⟨rfl, rfl, by simp⟩, rfl, rfl⟩
  | succ k ih =>
    intro w
    have hself : set_targets w.motors (fun j => current_target w j + 0) w.target_position =
        w.target_position := by
      simp only [add_zero]
      exact set_targets_self w.motors w.target_position
    have hstep : tick_loop env ((List.range NUMBER_OF_JOINTS).map fun _ => (0 : ℚ)) (k + 1)
        ((List.range NUMBER_OF_JOINTS).map (current_target w)) w =
        (step env { w with log := w.log ++ joint_events w.motors (current_target w) }).andThen
          (tick_loop env ((List.range NUMBER_OF_JOINTS).map fun _ => (0 : ℚ)) k
            ((List.range NUMBER_OF_JOINTS).map (current_target w))) := by
      simp only [tick_loop, joint_loop_eq, hself]
      simp only [add_zero]
    by_cases h0 : env.robot_step w.ticks = -1
    · refine ⟨wb_robot_cleanup
        { w with
          ticks := w.ticks + 1
          log := w.log ++ joint_events w.motors (current_target w) ++
            [Event.robot_step env.basic_time_step] }, 1, by omega, Or.inr ⟨?_, ?_⟩, rfl, rfl⟩
      · rw [hstep]
        simp only [step, if_pos h0, Outcome.andThen]
      · simp [wb_robot_cleanup, tick_events]
    · obtain ⟨w1, m, hm, hcase, htp, hmot⟩ := ih
        { w with
          ticks := w.ticks + 1
          log := w.log ++ joint_events w.motors (current_target w) ++
            [Event.robot_step env.basic_time_step] }
      have hrest : tick_loop env ((List.range NUMBER_OF_JOINTS).map fun _ => (0 : ℚ)) (k + 1)
          ((List.range NUMBER_OF_JOINTS).map (current_target w)) w =
          tick_loop env ((List.range NUMBER_OF_JOINTS).map fun _ => (0 : ℚ)) k
            ((List.range NUMBER_OF_JOINTS).map (current_target w))
            { w with
              ticks := w.ticks + 1
              log := w.log ++ joint_events w.motors (current_target w) ++
                [Event.robot_step env.basic_time_step] } := by
        rw [hstep]
        simp only [step, if_neg h0, Outcome.andThen]
      have hct : current_target
          { w with
            ticks := w.ticks + 1
            log := w.log ++ joint_events w.motors (current_target w) ++
              [Event.robot_step env.basic_time_step] } = current_target w := rfl
      rw [hct] at hcase
      refine ⟨w1, m + 1, by omega, ?_, htp, hmot⟩
      rcases hcase with ⟨e1, hmk, l1⟩ | ⟨e1, l1⟩
      · refine Or.inl ⟨?_, by omega, ?_⟩
        · rw [hrest]; exact e1
        · rw [l1, List.replicate_succ, List.flatten_cons]
          simp [tick_events, List.append_assoc]
      · refine Or.inr ⟨?_, ?_⟩
        · rw [hrest]; exact e1
        · rw [l1, List.replicate_succ, List.flatten_cons]
          simp [tick_events, List.append_assoc]

/-- C6 (idempotence of the no-op): when the current motor targets are the destination, joint
for joint, then for every step count and whatever the simulator answers, each tick made by the
call commands exactly the destination vector, and the motor targets at the end are those at
the start; without a termination request all `n` ticks are made. -/
theorem movement_decomposition_noop (env : Env) (w : World) (target : List ℚ)
    (duration : ℚ) (n : Int)
    (hn : n_steps_to_achieve_target env.basic_time_step duration = some n)
    (hcur : read_current_position w = target) :
    ∃ w1 m, m ≤ n.toNat ∧
      (movement_decomposition env target duration w = Outcome.returned w1 ∧ m = n.toNat ∧
          w1.log = w.log ++ (List.replicate m
            (tick_events w.motors env.basic_time_step (fun j => target.getD j 0))).flatten ∨
        movement_decomposition env target duration w = Outcome.exited w1 0 ∧
          w1.log = w.log ++ (List.replicate m
            (tick_events w.motors env.basic_time_step (fun j => target.getD j 0))).flatten ++
            [Event.cleanup]) ∧
      commanded_vector (tick_events w.motors env.basic_time_step (fun j => target.getD j 0)) =
        target ∧
      w1.target_position = w.target_position := by
  have hlen : target.length = NUMBER_OF_JOINTS := by
    rw [← hcur]; simp [read_current_position]
  have hsd : (List.range NUMBER_OF_JOINTS).map
      (fun j => (target.getD j 0 - current_target w j) / (n : ℚ)) =
      (List.range NUMBER_OF_JOINTS).map fun _ => (0 : ℚ) := by
    rw [← hcur]
    simp [read_current_position, current_target, range_joints]
  have hev : tick_events w.motors env.basic_time_step (fun j => target.getD j 0) =
      tick_events w.motors env.basic_time_step (current_target w) := by
    rw [← hcur]
    simp [tick_events, joint_events, read_current_position, current_target, range_joints]
  obtain ⟨w1, m, hm, hcase, htp, -⟩ := tick_loop_noop env n.toNat w
  rw [movement_decomposition_eq env target duration w n hn, hsd, hev]
  exact ⟨w1, m, hm, hcase, hev ▸ commanded_vector_tick_events _ _ _ hlen, htp⟩

/-- Witness of C6: the destination of `demo_world` is its own vector of targets. -/
theorem movement_decomposition_noop_witness :
    ∃ w1 m, m ≤ (2 : Int).toNat ∧
      (movement_decomposition demo_env (read_current_position demo_world) 1 demo_world =
            Outcome.returned w1 ∧ m = (2 : Int).toNat ∧
          w1.log = demo_world.log ++ (List.replicate m
            (tick_events demo_world.motors demo_env.basic_time_step
              (fun j => (read_current_position demo_world).getD j 0))).flatten ∨
        movement_decomposition demo_env (read_current_position demo_world) 1 demo_world =
            Outcome.exited w1 0 ∧
          w1.log = demo_world.log ++ (List.replicate m
            (tick_events demo_world.motors demo_env.basic_time_step
              (fun j => (read_current_position demo_world).getD j 0))).flatten ++
            [Event.cleanup]) ∧
      commanded_vector (tick_events demo_world.motors demo_env.basic_time_step
        (fun j => (read_current_position demo_world).getD j 0)) =
        read_current_position demo_world ∧
      w1.target_position = demo_world.target_position :=
  movement_decomposition_noop demo_env demo_world (read_current_position demo_world) 1 2
    (by decide!) rfl

/-- Counterexample to C3 as stated: with a 32 ms time step a duration of 0.01 s gives the
step count 0; the call neither raises nor clamps: it returns normally, no exit, no tick (a
clamped count of 1 would make one), no API call. -/
theorem degenerate_duration_not_rejected :
    n_steps_to_achieve_target demo_env_32.basic_time_step 0.01 = some 0 ∧
    (movement_decomposition demo_env_32 demo_target 0.01 demo_world).is_returned = true ∧
    (movement_decomposition demo_env_32 demo_target 0.01 demo_world).exit_status = none ∧
    (movement_decomposition demo_env_32 demo_target 0.01 demo_world).ticks =
      demo_world.ticks ∧
    (movement_decomposition demo_env_32 demo_target 0.01 demo_world).log = demo_world.log := by
  decide!

/-- C3, amended (degenerate duration): when the computed step count is 0,
`movement_decomposition` raises no condition and does not clamp the count; it returns
normally to its caller with the program state unchanged: no tick, no motor command. -/
theorem movement_decomposition_zero_steps (env : Env) (w : World) (target : List ℚ)
    (duration : ℚ)
    (hn : n_steps_to_achieve_target env.basic_time_step duration = some 0) :
    movement_decomposition env target duration w = Outcome.returned w := by
  rw [movement_decomposition_eq env target duration w 0 hn]
  rfl

/-- Witness of the amended C3: a 32 ms time step and a duration of 0.01 s. -/
theorem movement_decomposition_zero_steps_witness :
    movement_decomposition demo_env_32 demo_target 0.01 demo_world =
      Outcome.returned demo_world :=
  movement_decomposition_zero_steps demo_env_32 demo_world demo_target 0.01 (by decide!)

/-- Counterexample to C4 as stated: a duration of 1 s and a time step of 64 ms give the
quotient 15.625; the step count is 15, the nearest integer is 16. -/
theorem step_count_not_rounded :
    n_steps_to_achieve_target 64 1 = some 15 ∧ round ((1 : ℚ) * 1000 / 64) = 16 := by
  decide!

/-- For positive arguments the conversion rounds the computed quotient down. -/
theorem n_steps_of_pos (time_step duration q : ℚ) (hd : 0 < duration) (hts : 0 < time_step)
    (hq : step_quotient time_step duration = some q) (hmax : ⌊q⌋ ≤ INT_MAX) :
    n_steps_to_achieve_target time_step duration = some ⌊q⌋ := by
  have h0 : 0 ≤ q := step_quotient_nonneg (le_of_lt hd) (le_of_lt hts) hq
  have ht : trunc q = ⌊q⌋ := by
    unfold trunc
    rw [if_pos h0]
  have hmin : INT_MIN ≤ ⌊q⌋ := le_trans (by decide) (Int.floor_nonneg.mpr h0)
  rw [← ht] at hmax hmin ⊢
  exact n_steps_of_trunc hq ⟨hmin, hmax⟩

/-- C4, amended (step-count derivation): for a positive duration and a positive time step,
let `q` be the value of `duration * 1000 / time_step` as line 48 computes it (product and
quotient each rounded to binary64). When `q` fits an `int`, the step count is `q` with its
fractional part discarded (rounded down, not to nearest), and that count is what
`movement_decomposition` uses, as the divisor of the increments and as the number of
iterations of its tick loop. -/
theorem step_count_truncates (env : Env) (w : World) (target : List ℚ) (duration q : ℚ)
    (hd : 0 < duration) (hts : 0 < env.basic_time_step)
    (hq : step_quotient env.basic_time_step duration = some q)
    (hmax : ⌊q⌋ ≤ INT_MAX) :
    n_steps_to_achieve_target env.basic_time_step duration = some ⌊q⌋ ∧
    movement_decomposition env target duration w =
      tick_loop env (compute_step_difference target (read_current_position w) ⌊q⌋)
        ⌊q⌋.toNat (read_current_position w) w := by
  have hn := n_steps_of_pos env.basic_time_step duration q hd hts hq hmax
  refine ⟨hn, ?_⟩
  simp only [movement_decomposition, hn]

/-- Witness of the amended C4, the example of the specification: a duration of 1.0 s and a
time step of 32 ms give the quotient 31.25 and 31 steps. -/
theorem step_count_truncates_witness :
    (n_steps_to_achieve_target demo_env_32.basic_time_step 1.0 = some ⌊(31.25 : ℚ)⌋ ∧
      movement_decomposition demo_env_32 demo_target 1.0 demo_world =
        tick_loop demo_env_32
          (compute_step_difference demo_target (read_current_position demo_world)
            ⌊(31.25 : ℚ)⌋)
          ⌊(31.25 : ℚ)⌋.toNat (read_current_position demo_world) demo_world) ∧
      ⌊(31.25 : ℚ)⌋ = 31 :=
  ⟨step_count_truncates demo_env_32 demo_world demo_target 1.0 31.25 (by decide!)
    (by decide!) (by decide!) (by decide!), by decide!⟩

/-! ## The gait -/

/-- Four uninterrupted phases of `walk_forward` make four times the step count in ticks. -/
theorem walk_forward_run (env : Env) (w : World) (duration : ℚ) (n : Int)
    (hn : n_steps_to_achieve_target env.basic_time_step (duration / 3) = some n)
    (hrun : ∀ i, i < 4 * n.toNat → env.robot_step (w.ticks + i) ≠ -1) :
    ∃ w1, walk_forward env duration w = Outcome.returned w1 ∧
      w1.ticks = w.ticks + 4 * n.toNat := by
  obtain ⟨wa, ea, -, ta, -⟩ := movement_decomposition_run env w
    [-0.1, 0.1, 0.0, 0.1, -0.1, 0.0, -0.1, 0.1, 0.0, 0.1, -0.1, 0.0] (duration / 3) n hn
    (fun i hi => hrun i (by omega))
  obtain ⟨wb, eb, -, tb, -⟩ := movement_decomposition_run env wa
    [-0.15, 0.2, -0.2, 0.1, 0.0, 0.0, -0.1, 0.0, 0.0, 0.15, -0.2, 0.2] (duration / 3) n hn
    (fun i hi => by
      rw [ta, Nat.add_assoc]
      exact hrun (n.toNat + i) (by omega))
  obtain ⟨wc, ec, -, tc, -⟩ := movement_decomposition_run env wb
    [-0.1, 0.1, 0.0, 0.1, -0.1, 0.0, -0.1, 0.1, 0.0, 0.1, -0.1, 0.0] (duration / 3) n hn
    (fun i hi => by
      rw [tb, ta, Nat.add_assoc, Nat.add_assoc]
      exact hrun (n.toNat + (n.toNat + i)) (by omega))
  obtain ⟨wd, ed, -, td, -⟩ := movement_decomposition_run env wc
    [0.1, 0.0, 0.0, -0.15, -0.2, 0.2, 0.15, 0.2, -0.2, -0.1, 0.0, 0.0] (duration / 3) n hn
    (fun i hi => by
      rw [tc, tb, ta, Nat.add_assoc, Nat.add_assoc, Nat.add_assoc]
      exact hrun (n.toNat + (n.toNat + (n.toNat + i))) (by omega))
  refine ⟨wd, ?_, by omega⟩
  simp only [walk_forward, ea, eb, ec, ed, Outcome.andThen]

/-- Counterexample to C7 as stated: with a 32 ms time step an uninterrupted
`walk_forward(1.0)` makes 40 ticks, that is 1280 ms of simulated time, not 4000/3 ms. -/
theorem walk_time_not_four_thirds :
    (walk_forward demo_env_32 1 demo_world).is_returned = true ∧
    (walk_forward demo_env_32 1 demo_world).ticks - demo_world.ticks = 40 ∧
    (((walk_forward demo_env_32 1 demo_world).ticks - demo_world.ticks : Nat) : ℚ) *
      demo_env_32.basic_time_step ≠ 4 * 1 * 1000 / 3 := by
  decide!

/-- C7, amended (total walk time): for a positive duration `d` and a positive time step,
let `q` be the value of `(d / 3) * 1000 / time_step` as the code computes it in binary64,
within `int` range. An uninterrupted `walk_forward(d)` makes exactly `4 * ⌊q⌋` ticks, so the
simulated time (ticks times time step) is `4 * ⌊q⌋ * time_step` ms, a whole number of time
steps. -/
theorem walk_forward_total_time (env : Env) (w : World) (duration q : ℚ)
    (hd : 0 < duration) (hts : 0 < env.basic_time_step)
    (hq : step_quotient env.basic_time_step (duration / 3) = some q)
    (hmax : ⌊q⌋ ≤ INT_MAX)
    (hrun : ∀ i, i < 4 * ⌊q⌋.toNat → env.robot_step (w.ticks + i) ≠ -1) :
    ∃ w1, walk_forward env duration w = Outcome.returned w1 ∧
      w1.ticks = w.ticks + 4 * ⌊q⌋.toNat ∧
      ((w1.ticks - w.ticks : Nat) : ℚ) * env.basic_time_step =
        4 * (⌊q⌋ : ℚ) * env.basic_time_step := by
  have hn := n_steps_of_pos env.basic_time_step (duration / 3) q (by positivity) hts hq hmax
  obtain ⟨w1, e1, t1⟩ := walk_forward_run env w duration _ hn hrun
  refine ⟨w1, e1, t1, ?_⟩
  have h0 : 0 ≤ q := step_quotient_nonneg (by positivity) (le_of_lt hts) hq
  have hf : ((⌊q⌋.toNat : Nat) : ℚ) = ((⌊q⌋ : Int) : ℚ) := by
    have := Int.toNat_of_nonneg (Int.floor_nonneg.mpr h0)
    exact_mod_cast this
  rw [t1, Nat.add_sub_cancel_left]
  push_cast
  rw [hf]

/-- Witness of the amended C7: a 32 ms time step and a duration of 1 s; the computed
quotient is the `double` nearest to 10.41666..., and the walk takes 40 ticks. -/
theorem walk_forward_total_time_witness :
    (∃ w1, walk_forward demo_env_32 1 demo_world = Outcome.returned w1 ∧
      w1.ticks = demo_world.ticks + 4 * ⌊(5864062014805333 / 2 ^ 49 : ℚ)⌋.toNat ∧
      ((w1.ticks - demo_world.ticks : Nat) : ℚ) * demo_env_32.basic_time_step =
        4 * (⌊(5864062014805333 / 2 ^ 49 : ℚ)⌋ : ℚ) * demo_env_32.basic_time_step) ∧
      ⌊(5864062014805333 / 2 ^ 49 : ℚ)⌋ = 10 :=
  ⟨walk_forward_total_time demo_env_32 demo_world 1 (5864062014805333 / 2 ^ 49) (by decide!)
    (by decide!) (by decide!) (by decide!) (fun _ _ => by show (0 : Int) ≠ -1; decide),
    by decide!⟩

theorem andThen_returned (o : Outcome) : o.andThen Outcome.returned = o := by
  cases o <;> rfl

theorem andThen_assoc (o : Outcome) (f g : World → Outcome) :
    (o.andThen f).andThen g = o.andThen (fun w => (f w).andThen g) := by
  cases o <;> rfl

theorem run_phases_append (env : Env) (a b : List (List ℚ × ℚ)) (w : World) :
    run_phases env (a ++ b) w = (run_phases env a w).andThen (run_phases env b) := by
  induction a generalizing w with
  | nil => rfl
  | cons p a ih =>
    obtain ⟨target, duration⟩ := p
    rw [List.cons_append, run_phases_cons, run_phases_cons, andThen_assoc]
    congr 1
    funext w1
    exact ih w1

theorem walk_forward_eq_phases (env : Env) (duration : ℚ) (w : World) :
    walk_forward env duration w =
      run_phases env
        [([-0.1, 0.1, 0, 0.1, -0.1, 0, -0.1, 0.1, 0, 0.1, -0.1, 0], duration / 3),
         ([-0.15, 0.2, -0.2, 0.1, 0, 0, -0.1, 0, 0, 0.15, -0.2, 0.2], duration / 3),
         ([-0.1, 0.1, 0, 0.1, -0.1, 0, -0.1, 0.1, 0, 0.1, -0.1, 0], duration / 3),
         ([0.1, 0, 0, -0.15, -0.2, 0.2, 0.15, 0.2, -0.2, -0.1, 0, 0], duration / 3)] w := by
  have hshift : ([-0.1, 0.1, 0.0, 0.1, -0.1, 0.0, -0.1, 0.1, 0.0, 0.1, -0.1, 0.0] : List ℚ) =
      [-0.1, 0.1, 0, 0.1, -0.1, 0, -0.1, 0.1, 0, 0.1, -0.1, 0] := by norm_num
  have h1 : ([-0.15, 0.2, -0.2, 0.1, 0.0, 0.0, -0.1, 0.0, 0.0, 0.15, -0.2, 0.2] : List ℚ) =
      [-0.15, 0.2, -0.2, 0.1, 0, 0, -0.1, 0, 0, 0.15, -0.2, 0.2] := by norm_num
  have h2 : ([0.1, 0.0, 0.0, -0.15, -0.2, 0.2, 0.15, 0.2, -0.2, -0.1, 0.0, 0.0] : List ℚ) =
      [0.1, 0, 0, -0.15, -0.2, 0.2, 0.15, 0.2, -0.2, -0.1, 0, 0] := by norm_num
  simp only [walk_forward, run_phases, hshift, h1, h2, andThen_returned]

theorem stand_up_eq_phases (env : Env) (duration : ℚ) (w : World) :
    stand_up env duration w =
      run_phases env [([-0.1, 0, 0, 0.1, 0, 0, -0.1, 0, 0, 0.1, 0, 0], duration)] w := by
  have h : ([-0.1, 0.0, 0.0, 0.1, 0.0, 0.0, -0.1, 0.0, 0.0, 0.1, 0.0, 0.0] : List ℚ) =
      [-0.1, 0, 0, 0.1, 0, 0, -0.1, 0, 0, 0.1, 0, 0] := by norm_num
  simp only [stand_up, run_phases, h, andThen_returned]

theorem main_loop_eq_phases (env : Env) (k : Nat) :
    ∀ w : World,
      main_loop env k w = run_phases env (List.replicate k gait_cycle).flatten w := by
  induction k with
  | zero => intro w; rfl
  | succ k ih =>
    intro w
    have hcycle : ∀ w0 : World, run_phases env gait_cycle w0 =
        (stand_up env 1.0 w0).andThen (walk_forward env 1.0) := by
      intro w0
      have hw : walk_forward env 1.0 = run_phases env (gait_cycle.drop 1) := by
        funext w2
        exact walk_forward_eq_phases env 1.0 w2
      rw [hw, stand_up_eq_phases]
      simp only [run_phases, andThen_returned, gait_cycle, List.drop_succ_cons, List.drop_zero]
    rw [List.replicate_succ, List.flatten_cons, run_phases_append, hcycle]
    simp only [main_loop]
    congr 1
    funext w1
    exact ih w1

/-- C5 (walk cycle composition): `walk_forward(d)` is exactly four calls of
`movement_decomposition`, in this order and each over `d / 3`: to the shift pose, to the
phase-1 pose, to the shift pose again, to the phase-2 pose. -/
theorem walk_cycle_composition (env : Env) (duration : ℚ) (w : World) :
    walk_forward env duration w =
      run_phases env
        [([-0.1, 0.1, 0, 0.1, -0.1, 0, -0.1, 0.1, 0, 0.1, -0.1, 0], duration / 3),
         ([-0.15, 0.2, -0.2, 0.1, 0, 0, -0.1, 0, 0, 0.15, -0.2, 0.2], duration / 3),
         ([-0.1, 0.1, 0, 0.1, -0.1, 0, -0.1, 0.1, 0, 0.1, -0.1, 0], duration / 3),
         ([0.1, 0, 0, -0.15, -0.2, 0.2, 0.15, 0.2, -0.2, -0.1, 0, 0], duration / 3)] w :=
  walk_forward_eq_phases env duration w

/-- C8 (stand-up and driver cycle): `stand_up(d)` is one call of `movement_decomposition`
to the stand pose over the full `d`; the top-level loop, run for any number `k` of
iterations, is `k` repetitions of the cycle stand over 1.0, then shift, phase 1, shift,
phase 2 each over 1.0 / 3, that is of `stand_up(1.0)` followed by `walk_forward(1.0)`; and
`main` runs that loop on the state left by the device lookups. -/
theorem stand_up_and_driver_cycle (env : Env) (duration : ℚ) (w : World)
    (target_position : Nat → ℚ) (k : Nat) :
    stand_up env duration w =
      run_phases env [([-0.1, 0, 0, 0.1, 0, 0, -0.1, 0, 0, 0.1, 0, 0], duration)] w ∧
    main_loop env k w = run_phases env (List.replicate k gait_cycle).flatten w ∧
    main_loop env (k + 1) w =
      ((stand_up env 1.0 w).andThen (walk_forward env 1.0)).andThen (main_loop env k) ∧
    main env target_position k =
      run_phases env (List.replicate k gait_cycle).flatten
        (resolve_motors env (initial_world target_position)) :=
  ⟨stand_up_eq_phases env duration w, main_loop_eq_phases env k w, rfl,
    main_loop_eq_phases env k _⟩

/-! ## Start-up -/

theorem resolve_motors_eq (env : Env) (target_position : Nat → ℚ) :
    resolve_motors env (initial_world target_position) =
      { motors := motor_names.map env.get_device, target_position := target_position,
        ticks := 0, log := [] } := by
  simp [resolve_motors, initial_world, range_joints, motor_names]
  simp [NUMBER_OF_JOINTS, List.replicate]

/-- Counterexample to C9 as stated: the lookup of the front left elbow motor answers the
null tag 0; the program does not abort: the null tag is stored in `motors`, the gait loop is
entered, and the first iteration issues motor commands through the tag 0. -/
theorem missing_device_not_fatal :
    demo_env_missing.get_device "front left elbow motor" = 0 ∧
    (resolve_motors demo_env_missing (initial_world fun _ => 0)).motors =
      [1, 2, 0, 4, 5, 6, 7, 8, 9, 10, 11, 12] ∧
    (main demo_env_missing (fun _ => 0) 1).exit_status = none ∧
    (main demo_env_missing (fun _ => 0) 1).ticks = 2 ∧
    count_commands_through 0 (main demo_env_missing (fun _ => 0) 1).log = 2 := by
  decide!

/-- C9, amended (device resolution): the device lookups are not checked. Whatever each of the
twelve lookups answers, the null tag included, `main` stores the answers in `motors`, issues
no command meanwhile, and enters the gait loop; in the first `stand_up(1.0)`, when it has `n`
steps and is not interrupted, every tick commands joint `j` through the stored answer for
`motor_names[j]`, null or not. -/
theorem device_lookup_unchecked (env : Env) (target_position : Nat → ℚ) (n : Int) (k : Nat)
    (hn : n_steps_to_achieve_target env.basic_time_step 1.0 = some n)
    (hrun : ∀ i, i < n.toNat → env.robot_step i ≠ -1) :
    (resolve_motors env (initial_world target_position)).motors =
      motor_names.map env.get_device ∧
    (resolve_motors env (initial_world target_position)).log = [] ∧
    main env target_position (k + 1) =
      ((stand_up env 1.0 (resolve_motors env (initial_world target_position))).andThen
        (walk_forward env 1.0)).andThen (main_loop env k) ∧
    ∃ (w1 : World) (position : Nat → Nat → ℚ), stand_up env 1.0 (resolve_motors env (initial_world target_position)) =
        Outcome.returned w1 ∧
      w1.log = ((List.range' 1 n.toNat).map fun (i : Nat) =>
        (List.range NUMBER_OF_JOINTS).map (fun j =>
          Event.set_position ((motor_names.map env.get_device).getD j 0) (position i j)) ++
        [Event.robot_step env.basic_time_step]).flatten := by
  refine ⟨by rw [resolve_motors_eq], by rw [resolve_motors_eq], rfl, ?_⟩
  obtain ⟨w1, e1, -, -, l1⟩ := movement_decomposition_run env
    (resolve_motors env (initial_world target_position))
    [-0.1, 0.0, 0.0, 0.1, 0.0, 0.0, -0.1, 0.0, 0.0, 0.1, 0.0, 0.0] 1.0 n hn
    (by
      intro i hi
      rw [resolve_motors_eq]
      simpa using hrun i hi)
  refine ⟨w1, fun i j =>
    current_target (resolve_motors env (initial_world target_position)) j +
      (i : ℚ) * (([-0.1, 0.0, 0.0, 0.1, 0.0, 0.0, -0.1, 0.0, 0.0, 0.1, 0.0, 0.0] : List ℚ).getD j 0 -
        current_target (resolve_motors env (initial_world target_position)) j) / (n : ℚ),
    e1, ?_⟩
  rw [l1]
  simp only [resolve_motors_eq, List.nil_append, tick_events, joint_events]

/-- Witness of the amended C9: the simulator without a front left elbow motor. -/
theorem device_lookup_unchecked_witness :
    (resolve_motors demo_env_missing (initial_world fun _ => 0)).motors =
      motor_names.map demo_env_missing.get_device ∧
    (resolve_motors demo_env_missing (initial_world fun _ => 0)).log = [] ∧
    main demo_env_missing (fun _ => 0) (0 + 1) =
      ((stand_up demo_env_missing 1.0
          (resolve_motors demo_env_missing (initial_world fun _ => 0))).andThen
        (walk_forward demo_env_missing 1.0)).andThen (main_loop demo_env_missing 0) ∧
    ∃ (w1 : World) (position : Nat → Nat → ℚ),
      stand_up demo_env_missing 1.0
          (resolve_motors demo_env_missing (initial_world fun _ => 0)) =
        Outcome.returned w1 ∧
      w1.log = ((List.range' 1 (2 : Int).toNat).map fun (i : Nat) =>
        (List.range NUMBER_OF_JOINTS).map (fun j =>
          Event.set_position ((motor_names.map demo_env_missing.get_device).getD j 0)
            (position i j)) ++
        [Event.robot_step demo_env_missing.basic_time_step]).flatten :=
  device_lookup_unchecked demo_env_missing (fun _ => 0) 2 0 (by decide!)
    (fun _ _ => by show (0 : Int) ≠ -1; decide)

end SpotMovingDemo
